import Mathlib

/-
Verification of the CHIP-8 interpreter (mniverthi/chip8).

The Rust sources are shallowly embedded: machine integers (u8/u16) become
Nat with explicit reductions modulo 256 / 65536 at the operations where the
source wraps (release-profile semantics: `wrapping_add`/`wrapping_sub` and
plain arithmetic on sized integers reduce modulo 2^w); fixed arrays become
lists whose lengths are recorded in the validity predicate; fallible
indexing is bounds-checked.  A cycle result of `none` models a RAM access
whose computed index is out of range (a slice/index abort in the source);
`Outcome.fatal msg` models the source's explicit fatal aborts in the decode
arms and the non-RAM index aborts (stack, keyboard).
-/

set_option maxRecDepth 20000

namespace Chip8Verif

/-! ## Constants (src/consts.rs) -/

def DISPL_WIDTH : Nat := 64
def DISPL_HEIGHT : Nat := 32
def OP_CODE_BYTES : Nat := 2
def RAM_BYTES : Nat := 4096
def REG_COUNT : Nat := 16
def STACK_SIZE : Nat := 16
def MAX_ROM_BYTES : Nat := 3584

/-- Modelled from the spec: `consts::CHIP8_WIDTH` is referenced by the
processor but absent from the provided `consts.rs`; the spec (3. DATA MODEL)
fixes the framebuffer at 64 pixels wide, matching `DISPL_WIDTH`. -/
def CHIP8_WIDTH : Nat := 64

/-- Modelled from the spec: `consts::CHIP8_HEIGHT` is referenced by the
processor but absent from the provided `consts.rs`; the spec fixes the
framebuffer at 32 pixels tall, matching `DISPL_HEIGHT`. -/
def CHIP8_HEIGHT : Nat := 32

/-- Modelled from the spec: `consts::KEYBOARD_SIZE` is referenced by the
processor but absent from the provided `consts.rs`; the spec fixes a
16-entry keyboard latch. -/
def KEYBOARD_SIZE : Nat := 16

/-- Modelled from the spec: `consts::PROG_OFFSET` is referenced by
`Processor::init_ram` but absent from the provided `consts.rs`; the spec
(6. EXTERNAL INTERFACES) fixes the program offset at 0x200 = 512. -/
def PROG_OFFSET : Nat := 512

/-- Modelled from the spec: `consts::FONT_SET_SIZE` is referenced by
`Processor::init_ram` but absent from the provided `consts.rs`; the font
atlas holds 16 glyphs of 5 bytes each (the tests check glyph 0 at bytes
0..5 and glyph F at bytes 75..80), so its size is 80. -/
def FONT_SET_SIZE : Nat := 80

/-! ## Wrapping arithmetic for the sized integers of the source -/

/-- Reduction of a u8-valued computation modulo 2^8. -/
def wrap8 (a : Nat) : Nat := a % 256

/-- Reduction of a u16-valued computation modulo 2^16. -/
def wrap16 (a : Nat) : Nat := a % 65536

/-- u8 wrapping subtraction (`u8::wrapping_sub`): for a b < 256 this is
(a - b) mod 256. -/
def sub8 (a b : Nat) : Nat := (a % 256 + 256 - b % 256) % 256

/-! ## src/utils.rs -/

/-- Embeds `utils::nibble_split` applied to the two fetched opcode bytes:
`((bytes[0] & 0xF0) >> 4, bytes[0] & 0x0F, (bytes[1] & 0xF0) >> 4,
bytes[1] & 0x0F)`. -/
def nibble_split (b0 b1 : Nat) : Nat × Nat × Nat × Nat :=
  ((b0 &&& 0xF0) >>> 4, b0 &&& 0x0F, (b1 &&& 0xF0) >>> 4, b1 &&& 0x0F)

/-- Embeds `utils::bounds_check`. -/
def bounds_check (x y width height : Nat) : Bool :=
  x < width && y < height

/-! ## Machine state (src/core/processor.rs, src/core/ram.rs)

`rand::ThreadRng` (an external crate) is modelled as an injected stream of
pre-drawn bytes, consumed one per `Cxnn`; the spec's design notes call for
exactly this abstraction of the random source. -/

structure Chip8 where
  stack : List Nat
  registers : List Nat
  idx_register : Nat
  pc : Nat
  stack_pointer : Nat
  delay_timer : Nat
  sound_timer : Nat
  ram : List Nat
  display : List (List Nat)
  keyboard : List Nat
  rng : List Nat
deriving Repr, DecidableEq

/-- The representation invariants of the machine state: the fixed array
sizes from src/consts.rs and src/core/ram.rs, and the value ranges of the
sized integer fields (u8 / u16) and of the 1-bit display and keyboard
cells. -/
def Valid (s : Chip8) : Prop :=
  s.stack.length = STACK_SIZE ∧ (∀ v ∈ s.stack, v < 65536) ∧
  s.registers.length = REG_COUNT ∧ (∀ v ∈ s.registers, v < 256) ∧
  s.ram.length = RAM_BYTES ∧ (∀ v ∈ s.ram, v < 256) ∧
  s.display.length = CHIP8_HEIGHT ∧
  (∀ row ∈ s.display, row.length = CHIP8_WIDTH ∧ ∀ c ∈ row, c ≤ 1) ∧
  s.keyboard.length = KEYBOARD_SIZE ∧ (∀ k ∈ s.keyboard, k ≤ 1) ∧
  s.pc < 65536 ∧ s.idx_register < 65536 ∧ s.stack_pointer < 256 ∧
  s.delay_timer < 256 ∧ s.sound_timer < 256

instance (s : Chip8) : Decidable (Valid s) := by
  unfold Valid; infer_instance

/-- Result of one `Processor::cycle`. -/
inductive CycleStatus where
  | RedrawScreen
  | Continue
  | Waiting
deriving Repr, DecidableEq

/-- Outcome of a cycle: an ordinary return carrying the status and the new
state, or a fatal abort carrying the diagnostic message of the source's
abort site. -/
inductive Outcome where
  | ok (status : CycleStatus) (s : Chip8)
  | fatal (msg : String)
deriving Repr, DecidableEq

/-- Bounds-checked RAM write: `ram[i] = v` succeeds exactly when i is a
valid index. -/
def ramSet? (ram : List Nat) (i v : Nat) : Option (List Nat) :=
  if i < ram.length then some (ram.set i v) else none

/-! ## The Dxyn draw loops -/

/-- Inner bit loop of the Dxyn arm: `for shift_pos in 0..8`, stopping at the
first out-of-bounds column (the source's break).  `fuel` counts the
remaining iterations (8 - shift). -/
def drawRowGo (sprite xc yr : Nat) : Nat → Nat → List (List Nat) × Nat → List (List Nat) × Nat
  | _, 0, (vram, vf) => (vram, vf)
  | shift, fuel + 1, (vram, vf) =>
    if bounds_check (xc + shift) yr CHIP8_WIDTH CHIP8_HEIGHT then
      let mask := 1 <<< (7 - shift)
      let should_flip := (mask &&& sprite) >>> (7 - shift)
      if should_flip = 1 then
        let row := vram.getD yr []
        let old := row.getD (xc + shift) 0
        let vf' := if old = 1 then 1 else vf
        drawRowGo sprite xc yr (shift + 1) fuel
          (vram.set yr (row.set (xc + shift) (old ^^^ 1)), vf')
      else
        drawRowGo sprite xc yr (shift + 1) fuel (vram, vf)
    else (vram, vf)

/-- Outer row loop of the Dxyn arm: `for i in 0..n` over the sprite rows,
threading the framebuffer and the collision flag cell VF. -/
def drawSprite (xc yc : Nat) : List Nat → Nat → List (List Nat) × Nat → List (List Nat) × Nat
  | [], _, (vram, vf) => (vram, vf)
  | r :: rest, i, (vram, vf) =>
    drawSprite xc yc rest (i + 1) (drawRowGo r xc (yc + i) 0 8 (vram, vf))

/-- The sprite-row slice `ram[idx .. idx+n]`: defined exactly when the slice
end is within the buffer (Rust slice semantics). -/
def spriteRows (ram : List Nat) (idx n : Nat) : Option (List Nat) :=
  if idx + n ≤ ram.length then some ((ram.drop idx).take n) else none

/-! ## The Fx55 / Fx65 loops -/

/-- `for i in 0..(x+1) { ram[idx + i] = registers[i] }` with `cnt`
iterations remaining and `i` the current loop index; index arithmetic is
u16 (wrapping in release builds). -/
def storeRegsFrom (regs : List Nat) (idx : Nat) : Nat → Nat → List Nat → Option (List Nat)
  | _, 0, ram => some ram
  | i, cnt + 1, ram =>
    match ramSet? ram (wrap16 (idx + i)) (regs.getD i 0) with
    | none => none
    | some ram' => storeRegsFrom regs idx (i + 1) cnt ram'

/-- `for i in 0..(x+1) { registers[i] = ram[idx + i] }` with `cnt`
iterations remaining and `i` the current loop index. -/
def loadRegsFrom (ram : List Nat) (idx : Nat) : Nat → Nat → List Nat → Option (List Nat)
  | _, 0, regs => some regs
  | i, cnt + 1, regs =>
    match ram.get? (wrap16 (idx + i)) with
    | none => none
    | some v => loadRegsFrom ram idx (i + 1) cnt (regs.set i v)

/-- The Fx0A latch scan: `for i in 0..KEYBOARD_SIZE { if keyboard[i] == 1
{ .. break } }`, returning the first index holding 1, if any. -/
def firstKeyIdx : List Nat → Nat → Option Nat
  | [], _ => none
  | k :: rest, i => if k = 1 then some i else firstKeyIdx rest (i + 1)

/-- Diagnostic of the source's fatal abort for an undecodable opcode:
"Invalid instruction, received opcode: .., x: .., y: .., n: .." with the
four nibbles rendered in decimal. -/
def invalidMsg (op x y n : Nat) : String :=
  "Invalid instruction, received opcode: " ++ toString op ++
    ", x: " ++ toString x ++ ", y: " ++ toString y ++ ", n: " ++ toString n

/-- Diagnostic of the source's fatal abort for a 0nnn machine-language
call. -/
def machineRoutineMsg : String :=
  "Calling machine language routine, unsupported on this architecture"

/-- Diagnostic used for the source's non-RAM index aborts (stack and
keyboard array indexing). -/
def oobMsg : String := "index out of bounds"

/-- One timer's once-per-cycle decrement: a non-zero timer goes down by
one, a zero timer stays zero. -/
def decTimer (t : Nat) : Nat := if t > 0 then t - 1 else t

/-- The once-per-cycle timer decrement of the first dispatch. -/
def tickTimers (s : Chip8) : Chip8 :=
  { s with
    delay_timer := decTimer s.delay_timer,
    sound_timer := decTimer s.sound_timer }

/-- The Fx0A arm of the first dispatch (runs before the timer decrement).
`s` already carries the advanced pc. -/
def fx0a (x : Nat) (s : Chip8) : Option Outcome :=
  if s.keyboard.all (fun k => k == 0) then
    some (.ok .Waiting { s with pc := wrap16 (s.pc + (65536 - OP_CODE_BYTES)) })
  else
    match firstKeyIdx s.keyboard 0 with
    | some i => some (.ok .Continue { s with registers := s.registers.set x i })
    | none => some (.ok .Continue s)

/-- The derived operand `nn = (y << 4) | n` of the source's dispatch. -/
def opNN (y n : Nat) : Nat := (y <<< 4) ||| n

/-- The derived operand `nnn = (x << 8) | (y << 4) | n` of the source's
dispatch. -/
def opNNN (x y n : Nat) : Nat := (x <<< 8) ||| ((y <<< 4) ||| n)

/-- The 0xxx arms of the opcode table: clear screen (00E0), return (00EE),
and the fatal machine-language-call catch-all (0nnn). -/
def exec0 (x y n : Nat) (s : Chip8) : Option Outcome :=
  match x, y, n with
  -- (0, 0, 0xE, 0): clear screen
  | 0, 14, 0 =>
    some (.ok .RedrawScreen
      { s with display := List.replicate CHIP8_HEIGHT (List.replicate CHIP8_WIDTH 0) })
  -- (0, 0, 0xE, 0xE): return from subroutine
  | 0, 14, 14 =>
    match s.stack.get? (wrap8 (s.stack_pointer + 255)) with
    | none => some (.fatal oobMsg)
    | some ret =>
      some (.ok .Continue { s with stack_pointer := wrap8 (s.stack_pointer + 255), pc := ret })
  -- (0, _, _, _): unsupported machine-language call: fatal
  | _, _, _ => some (.fatal machineRoutineMsg)

/-- The 8xyk arms of the opcode table, dispatched on the low nibble. -/
def exec8 (x y n : Nat) (s : Chip8) : Option Outcome :=
  match n with
  -- (8, _, _, 0): Vx = Vy
  | 0 =>
    some (.ok .Continue { s with registers := s.registers.set x (s.registers.getD y 0) })
  -- (8, _, _, 4): add with carry flag; the flag is written to VF first and
  -- the operands are then re-read, as in the source
  | 4 =>
    let flag := if s.registers.getD x 0 + s.registers.getD y 0 > 255 then 1 else 0
    let r1 := s.registers.set 15 flag
    some (.ok .Continue { s with registers := r1.set x (wrap8 (r1.getD x 0 + r1.getD y 0)) })
  -- (8, _, _, 5): Vx -= Vy with no-borrow flag (flag written to VF first)
  | 5 =>
    let flag := if s.registers.getD x 0 ≥ s.registers.getD y 0 then 1 else 0
    let r1 := s.registers.set 15 flag
    some (.ok .Continue { s with registers := r1.set x (sub8 (r1.getD x 0) (r1.getD y 0)) })
  -- (8, _, _, 7): Vx = Vy - Vx with no-borrow flag (flag written to VF first)
  | 7 =>
    let flag := if s.registers.getD y 0 ≥ s.registers.getD x 0 then 1 else 0
    let r1 := s.registers.set 15 flag
    some (.ok .Continue { s with registers := r1.set x (sub8 (r1.getD y 0) (r1.getD x 0)) })
  -- (8, _, _, 1): Vx |= Vy
  | 1 =>
    some (.ok .Continue
      { s with registers := s.registers.set x (s.registers.getD x 0 ||| s.registers.getD y 0) })
  -- (8, _, _, 2): Vx &= Vy
  | 2 =>
    some (.ok .Continue
      { s with registers := s.registers.set x (s.registers.getD x 0 &&& s.registers.getD y 0) })
  -- (8, _, _, 3): Vx ^= Vy
  | 3 =>
    some (.ok .Continue
      { s with registers := s.registers.set x (s.registers.getD x 0 ^^^ s.registers.getD y 0) })
  -- (8, _, _, 6): shift right, shifted-out bit to VF (VF written first)
  | 6 =>
    let r1 := s.registers.set 15 (s.registers.getD x 0 &&& 1)
    some (.ok .Continue { s with registers := r1.set x (r1.getD x 0 >>> 1) })
  -- (8, _, _, 0xE): shift left, shifted-out bit to VF (VF written first)
  | 14 =>
    let r1 := s.registers.set 15 ((s.registers.getD x 0 &&& 128) >>> 7)
    some (.ok .Continue { s with registers := r1.set x (wrap8 (r1.getD x 0 <<< 1)) })
  -- no other 8xyk pattern exists: undecodable, fatal
  | _ => some (.fatal (invalidMsg 8 x y n))

/-- The Exkk arms of the opcode table. -/
def execE (x y n : Nat) (s : Chip8) : Option Outcome :=
  match y, n with
  -- (0xE, _, 9, 0xE): skip if key Vx down
  | 9, 14 =>
    match s.keyboard.get? (s.registers.getD x 0) with
    | none => some (.fatal oobMsg)
    | some k => some (.ok .Continue (if k = 1 then
        { s with pc := wrap16 (s.pc + OP_CODE_BYTES) } else s))
  -- (0xE, _, 0xA, 1): skip if key Vx up
  | 10, 1 =>
    match s.keyboard.get? (s.registers.getD x 0) with
    | none => some (.fatal oobMsg)
    | some k => some (.ok .Continue (if k ≠ 1 then
        { s with pc := wrap16 (s.pc + OP_CODE_BYTES) } else s))
  | _, _ => some (.fatal (invalidMsg 14 x y n))

/-- The Fxkk arms of the opcode table (Fx0A is diverted by the first
dispatch before this table is reached; were it to arrive here it would fall
into the same fatal catch-all as in the source's second match). -/
def execF (x y n : Nat) (s : Chip8) : Option Outcome :=
  match y, n with
  -- (0xF, _, 0, 7): Vx = delay timer
  | 0, 7 =>
    some (.ok .Continue { s with registers := s.registers.set x s.delay_timer })
  -- (0xF, _, 1, 5): delay timer = Vx
  | 1, 5 =>
    some (.ok .Continue { s with delay_timer := s.registers.getD x 0 })
  -- (0xF, _, 1, 8): sound timer = Vx
  | 1, 8 =>
    some (.ok .Continue { s with sound_timer := s.registers.getD x 0 })
  -- (0xF, _, 1, 0xE): idx += Vx (wrapping)
  | 1, 14 =>
    some (.ok .Continue { s with idx_register := wrap16 (s.idx_register + s.registers.getD x 0) })
  -- (0xF, _, 2, 9): idx = Vx * 5 (u8 multiply, wrapping in release builds)
  | 2, 9 =>
    some (.ok .Continue { s with idx_register := wrap8 (s.registers.getD x 0 * 5) })
  -- (0xF, _, 3, 3): binary-coded decimal of Vx at idx, idx+1, idx+2
  | 3, 3 =>
    match ramSet? s.ram s.idx_register (s.registers.getD x 0 / 100) with
    | none => none
    | some r1 =>
      match ramSet? r1 (wrap16 (s.idx_register + 1)) (s.registers.getD x 0 % 100 / 10) with
      | none => none
      | some r2 =>
        match ramSet? r2 (wrap16 (s.idx_register + 2)) (s.registers.getD x 0 % 10) with
        | none => none
        | some r3 => some (.ok .Continue { s with ram := r3 })
  -- (0xF, _, 5, 5): store V0..Vx at idx
  | 5, 5 =>
    match storeRegsFrom s.registers s.idx_register 0 (x + 1) s.ram with
    | none => none
    | some r => some (.ok .Continue { s with ram := r })
  -- (0xF, _, 6, 5): load V0..Vx from idx
  | 6, 5 =>
    match loadRegsFrom s.ram s.idx_register 0 (x + 1) s.registers with
    | none => none
    | some r => some (.ok .Continue { s with registers := r })
  | _, _ => some (.fatal (invalidMsg 15 x y n))

/-- The second dispatch of `Processor::cycle`: the opcode table of the
source's second match, re-grouped by leading nibble (each group function
keeps the source's arms); unmatched tuples reach the fatal catch-alls.
`s` carries the advanced pc and the already-decremented timers. -/
def execInstr (op x y n : Nat) (s : Chip8) : Option Outcome :=
  match op with
  | 0 => exec0 x y n s
  -- (1, _, _, _): jump to nnn
  | 1 => some (.ok .Continue { s with pc := opNNN x y n })
  -- (2, _, _, _): call subroutine at nnn
  | 2 =>
    if s.stack_pointer < s.stack.length then
      some (.ok .Continue
        { s with stack := s.stack.set s.stack_pointer s.pc,
                 stack_pointer := wrap8 (s.stack_pointer + 1), pc := opNNN x y n })
    else some (.fatal oobMsg)
  -- (3, _, _, _): skip if Vx equals nn
  | 3 =>
    some (.ok .Continue (if s.registers.getD x 0 = opNN y n then
      { s with pc := wrap16 (s.pc + OP_CODE_BYTES) } else s))
  -- (4, _, _, _): skip if Vx differs from nn
  | 4 =>
    some (.ok .Continue (if s.registers.getD x 0 ≠ opNN y n then
      { s with pc := wrap16 (s.pc + OP_CODE_BYTES) } else s))
  -- (5, _, _, 0): skip if Vx equals Vy; no other 5xyn pattern exists
  | 5 =>
    match n with
    | 0 => some (.ok .Continue (if s.registers.getD x 0 = s.registers.getD y 0 then
        { s with pc := wrap16 (s.pc + OP_CODE_BYTES) } else s))
    | _ => some (.fatal (invalidMsg 5 x y n))
  -- (6, _, _, _): Vx = nn
  | 6 => some (.ok .Continue { s with registers := s.registers.set x (opNN y n) })
  -- (7, _, _, _): Vx += nn (wrapping, no flag)
  | 7 =>
    some (.ok .Continue
      { s with registers := s.registers.set x (wrap8 (s.registers.getD x 0 + opNN y n)) })
  | 8 => exec8 x y n s
  -- (9, _, _, 0): skip if Vx differs from Vy; no other 9xyn pattern exists
  | 9 =>
    match n with
    | 0 => some (.ok .Continue (if s.registers.getD x 0 ≠ s.registers.getD y 0 then
        { s with pc := wrap16 (s.pc + OP_CODE_BYTES) } else s))
    | _ => some (.fatal (invalidMsg 9 x y n))
  -- (0xA, _, _, _): idx = nnn
  | 10 => some (.ok .Continue { s with idx_register := opNNN x y n })
  -- (0xB, _, _, _): jump to nnn + V0 (wrapping)
  | 11 => some (.ok .Continue { s with pc := wrap16 (opNNN x y n + s.registers.getD 0 0) })
  -- (0xC, _, _, _): Vx = nn & random byte
  | 12 =>
    some (.ok .Continue
      { s with registers := s.registers.set x (opNN y n &&& s.rng.headD 0 % 256),
               rng := s.rng.tail })
  -- (0xD, _, _, _): draw sprite
  | 13 =>
    match spriteRows s.ram s.idx_register n with
    | none => none
    | some sprite_vals =>
      let x_coord := s.registers.getD x 0 % CHIP8_WIDTH
      let y_coord := s.registers.getD y 0 % CHIP8_HEIGHT
      let dv := drawSprite x_coord y_coord sprite_vals 0 (s.display, s.registers.getD 15 0)
      some (.ok .RedrawScreen { s with display := dv.1, registers := s.registers.set 15 dv.2 })
  | 14 => execE x y n s
  | 15 => execF x y n s
  -- a nibble is below 16; other values are unreachable from `cycle`
  | _ => some (.fatal (invalidMsg op x y n))

/-- Embeds `Processor::cycle`: fetch the two bytes at pc (out-of-range pc
yields `none`), advance pc by two, split into nibbles; the first dispatch
handles Fx0A before the timer decrement, every other instruction decrements
the timers and then executes through the opcode table. -/
def cycle (s : Chip8) : Option Outcome :=
  match s.ram.get? s.pc, s.ram.get? (s.pc + 1) with
  | some b0, some b1 =>
    let inst := nibble_split b0 b1
    let op := inst.1
    let x := inst.2.1
    let y := inst.2.2.1
    let n := inst.2.2.2
    let s1 := { s with pc := wrap16 (s.pc + OP_CODE_BYTES) }
    if op = 15 ∧ y = 0 ∧ n = 10 then
      fx0a x s1
    else
      execInstr op x y n (tickTimers s1)
  | _, _ => none

/-- Projection of a cycle outcome onto the successor state, when the cycle
returned normally. -/
def outcomeState : Option Outcome → Option Chip8
  | some (Outcome.ok _ t) => some t
  | _ => none

/-! ## src/core/rom.rs and Processor::init_ram -/

/-- Embeds `Rom::new` on an already-opened readable file whose full byte
content is `fileData`: `File::read` into the 3584-byte zero-initialised
buffer is modelled as reading min(length, 3584) bytes, its return value
being that count; the source then accepts whenever the count is at most the
buffer length. -/
def romNew (fileData : List Nat) : Except String (List Nat) :=
  let status := min fileData.length MAX_ROM_BYTES
  let buffer := fileData.take MAX_ROM_BYTES ++
    List.replicate (MAX_ROM_BYTES - fileData.length) 0
  if status ≤ MAX_ROM_BYTES then Except.ok buffer
  else Except.error "Mismatch in expected ROM size and number of bytes read"

/-- Embeds `Processor::init_ram`: the font bytes overwrite
`ram[0..FONT_SET_SIZE]` and the ROM buffer overwrites
`ram[PROG_OFFSET..]` (`clone_from_slice` on each region). -/
def init_ram (ram fonts romBuf : List Nat) : List Nat :=
  fonts.take FONT_SET_SIZE ++
    ((ram.drop FONT_SET_SIZE).take (PROG_OFFSET - FONT_SET_SIZE)) ++ romBuf

/-! ## General lemmas about the embedding -/

theorem wrap16_eq_of_lt {a : Nat} (h : a < 65536) : wrap16 a = a :=
  Nat.mod_eq_of_lt h

theorem wrap8_eq_of_lt {a : Nat} (h : a < 256) : wrap8 a = a :=
  Nat.mod_eq_of_lt h

theorem getD_eq_getElem? (l : List Nat) (i d : Nat) : l.getD i d = (l[i]?).getD d := by
  simp [List.getD]

theorem getD_set_ne (l : List Nat) {i j : Nat} (v d : Nat) (h : i ≠ j) :
    (l.set i v).getD j d = l.getD j d := by
  rw [getD_eq_getElem?, getD_eq_getElem?, List.getElem?_set_ne h]

theorem getD_set_self (l : List Nat) {i : Nat} (v d : Nat) (h : i < l.length) :
    (l.set i v).getD i d = v := by
  rw [getD_eq_getElem?, List.getElem?_set_eq_of_lt v h]
  rfl

theorem lt_length_of_get? {l : List Nat} {i a : Nat} (h : l.get? i = some a) :
    i < l.length := by
  rw [List.get?_eq_getElem?] at h
  rcases List.getElem?_eq_some.mp h with ⟨h', _⟩
  exact h'

/-- Reduction of `cycle` once the two fetched bytes and their nibble split
are known. -/
theorem cycle_eq_of_fetch {s : Chip8} (b0 b1 op x y n : Nat)
    (h0 : s.ram.get? s.pc = some b0) (h1 : s.ram.get? (s.pc + 1) = some b1)
    (hn : nibble_split b0 b1 = (op, x, y, n)) :
    cycle s =
      if op = 15 ∧ y = 0 ∧ n = 10 then
        fx0a x { s with pc := wrap16 (s.pc + OP_CODE_BYTES) }
      else execInstr op x y n (tickTimers { s with pc := wrap16 (s.pc + OP_CODE_BYTES) }) := by
  unfold cycle
  rw [h0, h1]
  dsimp only
  rw [hn]

/-! Field computations of the advanced-pc, timer-ticked machine. -/

theorem tickUpd_registers (s : Chip8) (v : Nat) :
    (tickTimers { s with pc := v }).registers = s.registers := rfl

theorem tickUpd_ram (s : Chip8) (v : Nat) :
    (tickTimers { s with pc := v }).ram = s.ram := rfl

theorem tickUpd_stack (s : Chip8) (v : Nat) :
    (tickTimers { s with pc := v }).stack = s.stack := rfl

theorem tickUpd_keyboard (s : Chip8) (v : Nat) :
    (tickTimers { s with pc := v }).keyboard = s.keyboard := rfl

theorem tickUpd_display (s : Chip8) (v : Nat) :
    (tickTimers { s with pc := v }).display = s.display := rfl

theorem tickUpd_idx (s : Chip8) (v : Nat) :
    (tickTimers { s with pc := v }).idx_register = s.idx_register := rfl

theorem tickUpd_sp (s : Chip8) (v : Nat) :
    (tickTimers { s with pc := v }).stack_pointer = s.stack_pointer := rfl

theorem tickUpd_pc (s : Chip8) (v : Nat) :
    (tickTimers { s with pc := v }).pc = v := rfl

theorem tickUpd_rng (s : Chip8) (v : Nat) :
    (tickTimers { s with pc := v }).rng = s.rng := rfl

theorem sub8_eq_of_lt {a b : Nat} (ha : a < 256) (hb : b < 256) :
    sub8 a b = (a + 256 - b) % 256 := by
  unfold sub8
  rw [Nat.mod_eq_of_lt ha, Nat.mod_eq_of_lt hb]

/-- After a successful fetch the advanced pc does not wrap. -/
theorem fetch_pc_small {s : Chip8} {b1 : Nat} (hram : s.ram.length = RAM_BYTES)
    (h1 : s.ram.get? (s.pc + 1) = some b1) : s.pc + OP_CODE_BYTES < 65536 := by
  have := lt_length_of_get? h1
  rw [hram] at this
  unfold OP_CODE_BYTES
  unfold RAM_BYTES at this
  omega

theorem and15_lt (b : Nat) : b &&& 15 < 16 := by
  have : b &&& 15 ≤ 15 := Nat.and_le_right
  omega

theorem hi_nibble_lt (b : Nat) : (b &&& 240) >>> 4 < 16 := by
  have h1 : b &&& 240 ≤ 240 := Nat.and_le_right
  have h2 : (b &&& 240) >>> 4 ≤ 240 >>> 4 := by
    simp only [Nat.shiftRight_eq_div_pow]
    exact Nat.div_le_div_right h1
  omega

theorem nibble_split_fields {b0 b1 op x y n : Nat}
    (hn : nibble_split b0 b1 = (op, x, y, n)) :
    op = (b0 &&& 240) >>> 4 ∧ x = b0 &&& 15 ∧ y = (b1 &&& 240) >>> 4 ∧ n = b1 &&& 15 := by
  unfold nibble_split at hn
  simp only [Prod.mk.injEq] at hn
  exact ⟨hn.1.symm, hn.2.1.symm, hn.2.2.1.symm, hn.2.2.2.symm⟩

theorem nibble_lt {b0 b1 op x y n : Nat}
    (hn : nibble_split b0 b1 = (op, x, y, n)) :
    op < 16 ∧ x < 16 ∧ y < 16 ∧ n < 16 := by
  obtain ⟨h1, h2, h3, h4⟩ := nibble_split_fields hn
  subst h1; subst h2; subst h3; subst h4
  exact ⟨hi_nibble_lt b0, and15_lt b0, hi_nibble_lt b1, and15_lt b1⟩

set_option maxHeartbeats 1600000 in
/-- No arm of the opcode table other than Fx15 writes the delay timer, none
other than Fx18 writes the sound timer, and the Fx07 arm copies the delay
timer it was handed (the already-decremented one) into Vx. -/
theorem execInstr_timers {op x y n : Nat} {t : Chip8} {st : CycleStatus} {s' : Chip8}
    (h : execInstr op x y n t = some (.ok st s')) :
    (¬(op = 15 ∧ y = 1 ∧ n = 5) → s'.delay_timer = t.delay_timer) ∧
    (¬(op = 15 ∧ y = 1 ∧ n = 8) → s'.sound_timer = t.sound_timer) ∧
    (op = 15 ∧ y = 0 ∧ n = 7 → s'.registers = t.registers.set x t.delay_timer) := by
  unfold execInstr exec0 exec8 execE execF at h
  repeat' split at h
  all_goals simp at h
  all_goals obtain ⟨h1, h2⟩ := h
  all_goals subst h2
  all_goals refine ⟨?_, ?_, ?_⟩
  all_goals intro hc
  all_goals simp_all

/-! ## Claim C2: once-per-cycle timer discipline -/

/-- C2: on a blocked Fx0A (no key down) both timers are left unchanged; on
every instruction other than Fx0A, each non-zero timer is decremented by
exactly one (zero stays zero) and the decrement precedes the instruction's
own effect: the final delay timer equals the decremented one except when
Fx15 overwrites it, the final sound timer likewise except for Fx18, and
Fx07 copies the already-decremented delay timer into Vx. -/
theorem c2_timer_discipline (s : Chip8) (hv : Valid s) (b0 b1 op x y n : Nat)
    (h0 : s.ram.get? s.pc = some b0) (h1 : s.ram.get? (s.pc + 1) = some b1)
    (hn : nibble_split b0 b1 = (op, x, y, n)) :
    (op = 15 ∧ y = 0 ∧ n = 10 ∧ s.keyboard.all (fun k => k == 0) = true →
      ∃ s', cycle s = some (.ok .Waiting s') ∧
        s'.delay_timer = s.delay_timer ∧ s'.sound_timer = s.sound_timer) ∧
    (¬(op = 15 ∧ y = 0 ∧ n = 10) →
      ∀ st s', cycle s = some (.ok st s') →
        (¬(op = 15 ∧ y = 1 ∧ n = 5) →
          s'.delay_timer = if s.delay_timer > 0 then s.delay_timer - 1 else s.delay_timer) ∧
        (¬(op = 15 ∧ y = 1 ∧ n = 8) →
          s'.sound_timer = if s.sound_timer > 0 then s.sound_timer - 1 else s.sound_timer) ∧
        (op = 15 ∧ y = 0 ∧ n = 7 →
          s'.registers.getD x 0 =
            if s.delay_timer > 0 then s.delay_timer - 1 else s.delay_timer)) := by
  rw [cycle_eq_of_fetch _ _ _ _ _ _ h0 h1 hn]
  constructor
  · rintro ⟨hop, hy, hn10, hkb⟩
    rw [if_pos ⟨hop, hy, hn10⟩]
    unfold fx0a
    rw [if_pos hkb]
    exact ⟨_, rfl, rfl, rfl⟩
  · intro hgate st s' hcyc
    rw [if_neg hgate] at hcyc
    have ht := execInstr_timers hcyc
    refine ⟨fun hc => ht.1 hc, fun hc => ht.2.1 hc, fun hc => ?_⟩
    rw [ht.2.2 hc]
    obtain ⟨-, -, hreg, -⟩ := hv
    have hx : x < 16 := (nibble_lt hn).2.1
    have hlt : x < (tickTimers
        { s with pc := wrap16 (s.pc + OP_CODE_BYTES) }).registers.length := by
      show x < s.registers.length
      rw [hreg]
      exact hx
    rw [getD_set_self _ _ _ hlt]
    rfl

/-! ## Concrete machines for witnesses and counterexamples

Lists of 4096 elements are too deep for kernel-level traversal in one
recursion, so concrete machines are built by patching zero-filled buffers
and their validity is established through structural lemmas rather than by
evaluation. -/

/-- Applies a list of index-value patches to a buffer. -/
def setMany (l : List Nat) (ps : List (Nat × Nat)) : List Nat :=
  ps.foldl (fun r p => r.set p.1 p.2) l

theorem length_setMany (ps : List (Nat × Nat)) (l : List Nat) :
    (setMany l ps).length = l.length := by
  induction ps generalizing l with
  | nil => rfl
  | cons p ps ih =>
    show (setMany (l.set p.1 p.2) ps).length = l.length
    rw [ih, List.length_set]

theorem forall_mem_replicate {α : Type} {p : α → Prop} {n : Nat} {v : α}
    (hv : p v) : ∀ a ∈ List.replicate n v, p a := by
  intro a ha
  rw [List.eq_of_mem_replicate ha]
  exact hv

theorem forall_mem_set {α : Type} {p : α → Prop} {l : List α} {i : Nat} {v : α}
    (hl : ∀ a ∈ l, p a) (hv : p v) : ∀ a ∈ l.set i v, p a := by
  intro a ha
  rcases List.mem_or_eq_of_mem_set ha with h | h
  · exact hl a h
  · exact h ▸ hv

theorem forall_mem_setMany {p : Nat → Prop} {ps : List (Nat × Nat)} {l : List Nat}
    (hl : ∀ a ∈ l, p a) (hps : ∀ q ∈ ps, p q.2) : ∀ a ∈ setMany l ps, p a := by
  induction ps generalizing l with
  | nil => exact hl
  | cons q ps ih =>
    exact ih (forall_mem_set hl (hps q (List.mem_cons_self q ps)))
      (fun r hr => hps r (List.mem_cons_of_mem q hr))

/-- A machine with zero-filled buffers patched at the given indices. -/
def mkState (pc idx sp dt snd : Nat)
    (regPatch ramPatch kbPatch : List (Nat × Nat)) (rng : List Nat) : Chip8 :=
  { stack := List.replicate 16 0
    registers := setMany (List.replicate 16 0) regPatch
    idx_register := idx
    pc := pc
    stack_pointer := sp
    delay_timer := dt
    sound_timer := snd
    ram := setMany (List.replicate 4096 0) ramPatch
    display := List.replicate 32 (List.replicate 64 0)
    keyboard := setMany (List.replicate 16 0) kbPatch
    rng := rng }

theorem valid_mkState (pc idx sp dt snd : Nat)
    (regPatch ramPatch kbPatch : List (Nat × Nat)) (rng : List Nat)
    (hpc : pc < 65536) (hidx : idx < 65536) (hsp : sp < 256)
    (hdt : dt < 256) (hsnd : snd < 256)
    (hreg : ∀ q ∈ regPatch, q.2 < 256) (hram : ∀ q ∈ ramPatch, q.2 < 256)
    (hkb : ∀ q ∈ kbPatch, q.2 ≤ 1) :
    Valid (mkState pc idx sp dt snd regPatch ramPatch kbPatch rng) := by
  unfold Valid mkState
  refine ⟨?_, ?_, ?_, ?_, ?_, ?_, ?_, ?_, ?_, ?_, hpc, hidx, hsp, hdt, hsnd⟩
  · rw [List.length_replicate]; rfl
  · exact forall_mem_replicate (by omega)
  · rw [length_setMany, List.length_replicate]; rfl
  · exact forall_mem_setMany (forall_mem_replicate (by omega)) hreg
  · rw [length_setMany, List.length_replicate]; rfl
  · exact forall_mem_setMany (forall_mem_replicate (by omega)) hram
  · rw [List.length_replicate]; rfl
  · exact forall_mem_replicate
      ⟨by rw [List.length_replicate]; rfl, forall_mem_replicate (by omega)⟩
  · rw [length_setMany, List.length_replicate]; rfl
  · exact forall_mem_setMany (forall_mem_replicate (by omega)) hkb

/-- Witness machine for C2: the Fx07 instruction F1 07 at pc = 0x200 with
delay timer 10. -/
def c2State : Chip8 := mkState 512 0 0 10 0 [] [(512, 241), (513, 7)] [] []

theorem c2State_valid : Valid c2State :=
  valid_mkState _ _ _ _ _ _ _ _ _ (by omega) (by omega) (by omega) (by omega)
    (by omega) (by simp) (by decide) (by simp)

theorem c2_timer_discipline_witness :
    (outcomeState (cycle c2State)).map
      (fun t => (t.delay_timer, t.registers.getD 1 0)) = some (9, 9) := by
  obtain ⟨st, s', hcyc⟩ : ∃ st s', cycle c2State = some (.ok st s') :=
    ⟨CycleStatus.Continue, _, rfl⟩
  have h := (c2_timer_discipline c2State c2State_valid 241 7 15 1 0 7
    (by decide) (by decide) (by decide)).2 (by decide) st s' hcyc
  rw [hcyc]
  show some (s'.delay_timer, s'.registers.getD 1 0) = some (9, 9)
  rw [h.1 (by decide), h.2.2 ⟨rfl, rfl, rfl⟩]
  decide

/-! ## Claim C3: arithmetic flag behaviour of 8xy4 / 8xy5 / 8xy7 / 8xy6 / 8xyE -/

theorem getD_lt_of_forall {l : List Nat} {m : Nat} (hl : ∀ v ∈ l, v < m)
    (hm : 0 < m) : ∀ i, l.getD i 0 < m := by
  induction l with
  | nil => intro i; simpa [List.getD] using hm
  | cons a l ih =>
    intro i
    cases i with
    | zero => exact hl a (List.mem_cons_self a l)
    | succ j => exact ih (fun v hv => hl v (List.mem_cons_of_mem a hv)) j

/-- The flag value the spec documents for arm 8xyk (k the low nibble),
computed from the pre-instruction operand values a = Vx, b = Vy. -/
def flag8 (n a b : Nat) : Nat :=
  if n = 4 then (if a + b > 255 then 1 else 0)
  else if n = 5 then (if a ≥ b then 1 else 0)
  else if n = 7 then (if b ≥ a then 1 else 0)
  else if n = 6 then a % 2
  else a / 128 % 2

/-- The destination value the spec documents for arm 8xyk, computed from
the pre-instruction operand values and wrapped modulo 256. -/
def res8 (n a b : Nat) : Nat :=
  if n = 4 then (a + b) % 256
  else if n = 5 then (a + 256 - b) % 256
  else if n = 7 then (b + 256 - a) % 256
  else if n = 6 then a / 2
  else a * 2 % 256

theorem and_128_shift (a : Nat) : (a &&& 128) >>> 7 = a / 128 % 2 := by
  have h1 : a &&& 2 ^ 7 = (a.testBit 7).toNat * 2 ^ 7 := Nat.and_two_pow a 7
  norm_num at h1
  rw [h1, Nat.shiftRight_eq_div_pow]
  norm_num
  rw [Nat.testBit_to_div_mod]
  norm_num
  rcases Nat.mod_two_eq_zero_or_one (a / 128) with h | h <;> simp [h]

/-- Counterexample machine for C3 as stated: instruction 8F04 (x = 0xF) at
pc = 0x200 with VF = 200 and V0 = 100. -/
def c3CexState : Chip8 :=
  mkState 512 0 0 0 0 [(0, 100), (15, 200)] [(512, 143), (513, 4)] [] []

/-- C3 as stated is false at x = 0xF: executing 8F04 with VF = 200 and
V0 = 100 (an overflowing add, so the claim demands VF = 1 and a destination
value of (200 + 100) mod 256 = 44) leaves VF = 101: the source writes the
carry flag into VF first and then recomputes the sum from the clobbered
register. -/
theorem c3_arith_flags_counterexample :
    Valid c3CexState ∧
    c3CexState.registers.getD 15 0 + c3CexState.registers.getD 0 0 > 255 ∧
    (outcomeState (cycle c3CexState)).map (fun t => t.registers.getD 15 0) = some 101 ∧
    (101 : Nat) ≠ 1 ∧
    (101 : Nat) ≠ (c3CexState.registers.getD 15 0 + c3CexState.registers.getD 0 0) % 256 :=
  ⟨valid_mkState _ _ _ _ _ _ _ _ _ (by omega) (by omega) (by omega) (by omega)
      (by omega) (by decide) (by decide) (by simp),
    by decide, by decide, by decide, by decide⟩

/-- C3 amended: provided neither operand index is the flag register itself
(x ≠ 0xF always, and y ≠ 0xF for the two-operand arms 8xy4/8xy5/8xy7),
each arithmetic arm sets VF to the documented carry / no-borrow /
shifted-out-bit value and the destination register to the documented result
wrapped modulo 256, both computed from the pre-instruction operand values;
the final VF never depends on VF's prior contents. -/
theorem c3_arith_flags (s : Chip8) (hv : Valid s) (b0 b1 x y n : Nat)
    (h0 : s.ram.get? s.pc = some b0) (h1 : s.ram.get? (s.pc + 1) = some b1)
    (hn : nibble_split b0 b1 = (8, x, y, n))
    (hx : x ≠ 15)
    (hy : n = 4 ∨ n = 5 ∨ n = 7 → y ≠ 15)
    (hmem : n = 4 ∨ n = 5 ∨ n = 7 ∨ n = 6 ∨ n = 14) :
    ∃ s', cycle s = some (.ok .Continue s') ∧
      s'.registers =
        (s.registers.set 15 (flag8 n (s.registers.getD x 0) (s.registers.getD y 0))).set x
          (res8 n (s.registers.getD x 0) (s.registers.getD y 0)) ∧
      s'.pc = s.pc + 2 := by
  obtain ⟨-, -, hreglen, hregbound, hramlen, -⟩ := hv
  have hpc2 : wrap16 (s.pc + OP_CODE_BYTES) = s.pc + 2 :=
    wrap16_eq_of_lt (fetch_pc_small hramlen h1)
  have h15x : (15 : Nat) ≠ x := Ne.symm hx
  have hxa : s.registers.getD x 0 < 256 :=
    getD_lt_of_forall hregbound (by omega) x
  have hya : s.registers.getD y 0 < 256 :=
    getD_lt_of_forall hregbound (by omega) y
  rw [cycle_eq_of_fetch _ _ _ _ _ _ h0 h1 hn]
  rw [if_neg (by simp)]
  rcases hmem with h4 | h5 | h7 | h6 | h14
  · subst h4
    simp only [execInstr, exec8, tickUpd_registers, tickUpd_pc]
    refine ⟨_, rfl, ?_, hpc2⟩
    rw [getD_set_ne _ _ _ h15x, getD_set_ne _ _ _ (Ne.symm (hy (by omega)))]
    rfl
  · subst h5
    simp only [execInstr, exec8, tickUpd_registers, tickUpd_pc]
    refine ⟨_, rfl, ?_, hpc2⟩
    rw [getD_set_ne _ _ _ h15x, getD_set_ne _ _ _ (Ne.symm (hy (by omega))),
      sub8_eq_of_lt hxa hya]
    simp [flag8, res8]
  · subst h7
    simp only [execInstr, exec8, tickUpd_registers, tickUpd_pc]
    refine ⟨_, rfl, ?_, hpc2⟩
    rw [getD_set_ne _ _ _ h15x, getD_set_ne _ _ _ (Ne.symm (hy (by omega))),
      sub8_eq_of_lt hya hxa]
    simp [flag8, res8]
  · subst h6
    simp only [execInstr, exec8, tickUpd_registers, tickUpd_pc]
    refine ⟨_, rfl, ?_, hpc2⟩
    rw [getD_set_ne _ _ _ h15x]
    simp [flag8, res8, Nat.and_one_is_mod, Nat.shiftRight_one]
  · subst h14
    simp only [execInstr, exec8, tickUpd_registers, tickUpd_pc]
    refine ⟨_, rfl, ?_, hpc2⟩
    rw [getD_set_ne _ _ _ h15x]
    simp [flag8, res8, wrap8, and_128_shift, Nat.shiftLeft_eq]

/-- Witness machine for C3: instruction 83A4 (8xy4 with x = 3, y = 0xA) at
pc = 0x200 with V3 = 200 and VA = 100. -/
def c3State : Chip8 :=
  mkState 512 0 0 0 0 [(3, 200), (10, 100)] [(512, 131), (513, 164)] [] []

theorem c3_arith_flags_witness :
    ∃ s', cycle c3State = some (.ok .Continue s') ∧
      s'.registers =
        (c3State.registers.set 15 (flag8 4 (c3State.registers.getD 3 0)
          (c3State.registers.getD 10 0))).set 3
          (res8 4 (c3State.registers.getD 3 0) (c3State.registers.getD 10 0)) ∧
      s'.pc = c3State.pc + 2 :=
  c3_arith_flags c3State
    (valid_mkState _ _ _ _ _ _ _ _ _ (by omega) (by omega) (by omega) (by omega)
      (by omega) (by decide) (by decide) (by simp))
    131 164 3 10 4 (by decide) (by decide) (by decide)
    (by decide) (fun h => by decide) (Or.inl rfl)

/-! ## Claim C7: Fx29 font addressing -/

/-- Counterexample machine for C7 as stated: instruction F129 at pc = 0x200
with V1 = 100. -/
def c7CexState : Chip8 :=
  mkState 512 0 0 0 0 [(1, 100)] [(512, 241), (513, 41)] [] []

/-- C7 as stated is false at Vx = 100: the source multiplies in u8 before
widening, so Fx29 yields idx = (5 * 100) mod 256 = 244, not 500. -/
theorem c7_font_idx_counterexample :
    Valid c7CexState ∧
    c7CexState.registers.getD 1 0 = 100 ∧
    (outcomeState (cycle c7CexState)).map (fun t => t.idx_register) = some 244 ∧
    (244 : Nat) ≠ 5 * 100 :=
  ⟨valid_mkState _ _ _ _ _ _ _ _ _ (by omega) (by omega) (by omega) (by omega)
      (by omega) (by decide) (by decide) (by simp),
    by decide, by decide, by decide⟩

/-- C7 amended: after Fx29 the index register equals (Vx * 5) mod 256 (the
u8 multiply wraps); this equals 5 * Vx exactly on Vx ≤ 51, which covers
every font digit 0..0xF. -/
theorem c7_font_idx (s : Chip8) (b0 b1 x : Nat)
    (h0 : s.ram.get? s.pc = some b0) (h1 : s.ram.get? (s.pc + 1) = some b1)
    (hn : nibble_split b0 b1 = (15, x, 2, 9)) :
    ∃ s', cycle s = some (.ok .Continue s') ∧
      s'.idx_register = s.registers.getD x 0 * 5 % 256 ∧
      (s.registers.getD x 0 ≤ 51 → s'.idx_register = 5 * s.registers.getD x 0) := by
  rw [cycle_eq_of_fetch _ _ _ _ _ _ h0 h1 hn]
  rw [if_neg (by simp)]
  simp only [execInstr, execF, tickUpd_registers, tickUpd_idx]
  refine ⟨_, rfl, rfl, fun h51 => ?_⟩
  show wrap8 (s.registers.getD x 0 * 5) = _
  unfold wrap8
  omega

/-- Witness machine for C7: instruction F129 at pc = 0x200 with V1 = 10
(a font digit). -/
def c7State : Chip8 :=
  mkState 512 0 0 0 0 [(1, 10)] [(512, 241), (513, 41)] [] []

theorem c7_font_idx_witness :
    ∃ s', cycle c7State = some (.ok .Continue s') ∧
      s'.idx_register = c7State.registers.getD 1 0 * 5 % 256 ∧
      (c7State.registers.getD 1 0 ≤ 51 →
        s'.idx_register = 5 * c7State.registers.getD 1 0) :=
  c7_font_idx c7State 241 41 1 (by decide) (by decide) (by decide)

/-! ## Claim C10: frame effect of Fx55 / Fx65 -/

theorem storeRegsFrom_some (regs : List Nat) (idx : Nat) :
    ∀ cnt i ram, (∀ j, j < cnt → idx + i + j < ram.length) → ram.length ≤ 65536 →
      ∃ r, storeRegsFrom regs idx i cnt ram = some r ∧ r.length = ram.length := by
  intro cnt
  induction cnt with
  | zero => exact fun i ram _ _ => ⟨ram, rfl, rfl⟩
  | succ c ih =>
    intro i ram hran hlen
    have hfst : idx + i < ram.length := by
      have := hran 0 (Nat.succ_pos c)
      omega
    have hw : wrap16 (idx + i) = idx + i := wrap16_eq_of_lt (by omega)
    have hset : ramSet? ram (wrap16 (idx + i)) (regs.getD i 0) =
        some (ram.set (idx + i) (regs.getD i 0)) := by
      unfold ramSet?
      rw [hw, if_pos hfst]
    obtain ⟨r, hr, hrl⟩ := ih (i + 1) (ram.set (idx + i) (regs.getD i 0))
      (fun j hj => by rw [List.length_set]; have := hran (j + 1) (by omega); omega)
      (by rw [List.length_set]; exact hlen)
    refine ⟨r, ?_, by rw [hrl, List.length_set]⟩
    unfold storeRegsFrom
    rw [hset]
    exact hr

theorem loadRegsFrom_some (ram : List Nat) (idx : Nat) :
    ∀ cnt i regs, (∀ j, j < cnt → idx + i + j < ram.length) → ram.length ≤ 65536 →
      ∃ r, loadRegsFrom ram idx i cnt regs = some r := by
  intro cnt
  induction cnt with
  | zero => exact fun i regs _ _ => ⟨regs, rfl⟩
  | succ c ih =>
    intro i regs hran hlen
    have hfst : idx + i < ram.length := by
      have := hran 0 (Nat.succ_pos c)
      omega
    have hw : wrap16 (idx + i) = idx + i := wrap16_eq_of_lt (by omega)
    obtain ⟨v, hvv⟩ : ∃ v, ram.get? (idx + i) = some v :=
      ⟨ram.get ⟨idx + i, hfst⟩, List.get?_eq_get hfst⟩
    obtain ⟨r, hr⟩ := ih (i + 1) (regs.set i v)
      (fun j hj => by have := hran (j + 1) (by omega); omega) hlen
    refine ⟨r, ?_⟩
    unfold loadRegsFrom
    rw [hw, hvv]
    exact hr

/-- C10: Fx55 and Fx65 leave the index register unchanged (no
post-increment); Fx55 additionally leaves every register V0..VF unchanged,
and Fx65 leaves all of RAM unchanged. -/
theorem c10_store_load_frame (s : Chip8) (hv : Valid s) (b0 b1 x y : Nat)
    (h0 : s.ram.get? s.pc = some b0) (h1 : s.ram.get? (s.pc + 1) = some b1)
    (hn : nibble_split b0 b1 = (15, x, y, 5)) (hy : y = 5 ∨ y = 6)
    (hidx : s.idx_register + x < 4096) :
    ∃ s', cycle s = some (.ok .Continue s') ∧
      s'.idx_register = s.idx_register ∧
      (y = 5 → s'.registers = s.registers) ∧
      (y = 6 → s'.ram = s.ram) := by
  obtain ⟨-, -, -, -, hramlen, -⟩ := hv
  have hramlen' : s.ram.length = 4096 := hramlen
  rw [cycle_eq_of_fetch _ _ _ _ _ _ h0 h1 hn]
  rw [if_neg (by simp)]
  rcases hy with h5 | h6
  · subst h5
    simp only [execInstr, execF, tickUpd_registers, tickUpd_idx, tickUpd_ram]
    obtain ⟨r, hr, -⟩ := storeRegsFrom_some s.registers s.idx_register (x + 1) 0 s.ram
      (fun j hj => by rw [hramlen']; omega) (by rw [hramlen']; omega)
    rw [hr]
    exact ⟨_, rfl, rfl, fun _ => rfl, fun h => by omega⟩
  · subst h6
    simp only [execInstr, execF, tickUpd_registers, tickUpd_idx, tickUpd_ram]
    obtain ⟨r, hr⟩ := loadRegsFrom_some s.ram s.idx_register (x + 1) 0 s.registers
      (fun j hj => by rw [hramlen']; omega) (by rw [hramlen']; omega)
    rw [hr]
    exact ⟨_, rfl, rfl, fun h => by omega, fun _ => rfl⟩

/-- Witness machine for C10: instruction F455 (store V0..V4) at pc = 0x200
with idx = 25. -/
def c10State : Chip8 :=
  mkState 512 25 0 0 0 [(0, 12), (1, 25), (2, 13), (4, 14)] [(512, 244), (513, 85)] [] []

theorem c10_store_load_frame_witness :
    ∃ s', cycle c10State = some (.ok .Continue s') ∧
      s'.idx_register = c10State.idx_register ∧
      ((5 : Nat) = 5 → s'.registers = c10State.registers) ∧
      ((5 : Nat) = 6 → s'.ram = c10State.ram) :=
  c10_store_load_frame c10State
    (valid_mkState _ _ _ _ _ _ _ _ _ (by omega) (by omega) (by omega) (by omega)
      (by omega) (by decide) (by decide) (by simp))
    244 85 4 5 (by decide) (by decide) (by decide) (Or.inl rfl) (by decide)

/-! ## Claim C8: the key-wait instruction Fx0A -/

theorem firstKeyIdx_exists : ∀ (kb : List Nat) (j : Nat), (∀ k ∈ kb, k ≤ 1) →
    kb.all (fun k => k == 0) = false → ∃ i, firstKeyIdx kb j = some i := by
  intro kb
  induction kb with
  | nil => intro j _ h; simp at h
  | cons k kb ih =>
    intro j hb hall
    by_cases hk : k = 1
    · exact ⟨j, by unfold firstKeyIdx; rw [if_pos hk]⟩
    · have hk0 : k = 0 := by
        have := hb k (List.mem_cons_self k kb)
        omega
      have htail : kb.all (fun k => k == 0) = false := by
        rw [List.all_cons] at hall
        simpa [hk0] using hall
      obtain ⟨i, hi⟩ := ih (j + 1) (fun a ha => hb a (List.mem_cons_of_mem k ha)) htail
      exact ⟨i, by unfold firstKeyIdx; rw [if_neg hk]; exact hi⟩

theorem firstKeyIdx_spec : ∀ (kb : List Nat) (j i : Nat), firstKeyIdx kb j = some i →
    j ≤ i ∧ i - j < kb.length ∧ kb.getD (i - j) 0 = 1 ∧
      ∀ m, m < i - j → kb.getD m 0 ≠ 1 := by
  intro kb
  induction kb with
  | nil => intro j i h; simp [firstKeyIdx] at h
  | cons k kb ih =>
    intro j i h
    unfold firstKeyIdx at h
    by_cases hk : k = 1
    · rw [if_pos hk] at h
      injection h with h
      subst h
      refine ⟨Nat.le_refl j, by simp only [List.length_cons]; omega, ?_, fun m hm => by omega⟩
      simpa [Nat.sub_self] using hk
    · rw [if_neg hk] at h
      obtain ⟨hji, hlen, hget, hmin⟩ := ih (j + 1) i h
      refine ⟨by omega, ?_, ?_, ?_⟩
      · simp only [List.length_cons]; omega
      · have hij : i - j = (i - (j + 1)) + 1 := by omega
        rw [hij]
        simpa using hget
      · intro m hm
        cases m with
        | zero => simpa using hk
        | succ m' =>
          have hm' : m' < i - (j + 1) := by omega
          simpa using hmin m' hm'

/-- Repeated invocation of the cycle operation, keeping the state of each
normally-returning cycle. -/
def waitRun (s : Chip8) : Nat → Chip8
  | 0 => s
  | k + 1 =>
    match cycle (waitRun s k) with
    | some (Outcome.ok _ t) => t
    | _ => waitRun s k

/-- C8: a blocked Fx0A (no key down) returns Waiting with the machine state
(in particular pc) entirely unchanged, and keeps doing so over arbitrarily
many repeated cycles; with at least one key down, Vx is latched to the
lowest-indexed down key, the cycle reports Continue, and pc advances by
exactly 2. -/
theorem c8_key_wait (s : Chip8) (hv : Valid s) (b0 b1 x : Nat)
    (h0 : s.ram.get? s.pc = some b0) (h1 : s.ram.get? (s.pc + 1) = some b1)
    (hn : nibble_split b0 b1 = (15, x, 0, 10)) :
    (s.keyboard.all (fun k => k == 0) = true →
      cycle s = some (.ok .Waiting s) ∧
      ∀ k, waitRun s k = s ∧ cycle (waitRun s k) = some (.ok .Waiting s)) ∧
    (s.keyboard.all (fun k => k == 0) = false →
      ∃ i, firstKeyIdx s.keyboard 0 = some i ∧
        s.keyboard.getD i 0 = 1 ∧ (∀ m, m < i → s.keyboard.getD m 0 ≠ 1) ∧
        cycle s = some (.ok .Continue
          { s with pc := s.pc + 2, registers := s.registers.set x i })) := by
  obtain ⟨-, -, -, -, hramlen, -, -, -, -, hkbbound, hpclt, -⟩ := hv
  have hpc2 : wrap16 (s.pc + OP_CODE_BYTES) = s.pc + 2 :=
    wrap16_eq_of_lt (fetch_pc_small hramlen h1)
  have hcycle := cycle_eq_of_fetch _ _ _ _ _ _ h0 h1 hn
  rw [if_pos ⟨rfl, rfl, rfl⟩] at hcycle
  constructor
  · intro hkb
    have hblock : cycle s = some (.ok .Waiting s) := by
      rw [hcycle]
      unfold fx0a
      rw [if_pos hkb]
      show some (Outcome.ok CycleStatus.Waiting
        { s with pc := wrap16 (wrap16 (s.pc + OP_CODE_BYTES) + (65536 - OP_CODE_BYTES)) }) = _
      rw [show wrap16 (wrap16 (s.pc + OP_CODE_BYTES) + (65536 - OP_CODE_BYTES)) = s.pc by
        unfold wrap16 OP_CODE_BYTES
        omega]
    refine ⟨hblock, ?_⟩
    intro k
    induction k with
    | zero => exact ⟨rfl, hblock⟩
    | succ k ih =>
      have hwr : waitRun s (k + 1) = s := by
        show (match cycle (waitRun s k) with
          | some (Outcome.ok _ t) => t
          | _ => waitRun s k) = s
        rw [ih.1, hblock]
      exact ⟨hwr, by rw [hwr]; exact hblock⟩
  · intro hkb
    obtain ⟨i, hi⟩ := firstKeyIdx_exists s.keyboard 0 hkbbound hkb
    obtain ⟨-, -, hget, hmin⟩ := firstKeyIdx_spec s.keyboard 0 i hi
    refine ⟨i, hi, by simpa using hget, fun m hm => by simpa using hmin m (by omega), ?_⟩
    rw [hcycle]
    unfold fx0a
    rw [if_neg (by rw [hkb]; exact Bool.false_ne_true)]
    show (match firstKeyIdx s.keyboard 0 with
      | some i => some (Outcome.ok CycleStatus.Continue
          { s with pc := wrap16 (s.pc + OP_CODE_BYTES),
                   registers := s.registers.set x i })
      | none => some (Outcome.ok CycleStatus.Continue
          { s with pc := wrap16 (s.pc + OP_CODE_BYTES) })) = _
    rw [hi, hpc2]

/-- Witness machine for C8: instruction F10A at pc = 0x200 with key 0x1
down. -/
def c8State : Chip8 :=
  mkState 512 0 0 0 0 [] [(512, 241), (513, 10)] [(1, 1)] []

theorem c8_key_wait_witness :
    ∃ i, firstKeyIdx c8State.keyboard 0 = some i ∧
      c8State.keyboard.getD i 0 = 1 ∧ (∀ m, m < i → c8State.keyboard.getD m 0 ≠ 1) ∧
      cycle c8State = some (.ok .Continue
        { c8State with pc := c8State.pc + 2, registers := c8State.registers.set 1 i }) :=
  (c8_key_wait c8State
    (valid_mkState _ _ _ _ _ _ _ _ _ (by omega) (by omega) (by omega) (by omega)
      (by omega) (by simp) (by decide) (by decide))
    241 10 1 (by decide) (by decide) (by decide)).2 (by decide)

/-! ## Claim C9: subroutine call / return round trip -/

/-- Reduction of the 00EE arm once the decremented stack pointer and the
popped return address are known. -/
theorem exec0_ret (t : Chip8) (sp ret : Nat)
    (hsp : wrap8 (t.stack_pointer + 255) = sp)
    (hget : t.stack.get? sp = some ret) :
    exec0 0 14 14 t = some (.ok .Continue { t with stack_pointer := sp, pc := ret }) := by
  unfold exec0
  rw [hsp, hget]

/-- C9: a 2nnn call followed by the 00EE return restores pc to the
instruction after the call and the stack pointer to its pre-call value,
corrupting no stack entry other than the pushed slot; this holds for any
stack pointer below the 16-entry capacity, hence through 16 nested calls. -/
theorem c9_call_ret (s : Chip8) (hv : Valid s) (b0 b1 x y n : Nat)
    (h0 : s.ram.get? s.pc = some b0) (h1 : s.ram.get? (s.pc + 1) = some b1)
    (hn : nibble_split b0 b1 = (2, x, y, n))
    (hsp : s.stack_pointer < 16)
    (hr0 : s.ram.get? (opNNN x y n) = some 0)
    (hr1 : s.ram.get? (opNNN x y n + 1) = some 238) :
    ∃ s1 s2, cycle s = some (.ok .Continue s1) ∧ cycle s1 = some (.ok .Continue s2) ∧
      s1.pc = opNNN x y n ∧ s1.stack_pointer = s.stack_pointer + 1 ∧
      s2.pc = s.pc + 2 ∧ s2.stack_pointer = s.stack_pointer ∧
      (∀ j, j ≠ s.stack_pointer → s2.stack.get? j = s.stack.get? j) := by
  obtain ⟨hstlen, -, -, -, hramlen, -⟩ := hv
  have hstlen16 : s.stack.length = 16 := hstlen
  have hpc2 : wrap16 (s.pc + OP_CODE_BYTES) = s.pc + 2 :=
    wrap16_eq_of_lt (fetch_pc_small hramlen h1)
  have hsp1 : wrap8 (s.stack_pointer + 1) = s.stack_pointer + 1 :=
    wrap8_eq_of_lt (by omega)
  have hc1 : cycle s = some (.ok .Continue
      { s with
        stack := s.stack.set s.stack_pointer (s.pc + 2),
        stack_pointer := s.stack_pointer + 1,
        pc := opNNN x y n,
        delay_timer := decTimer s.delay_timer,
        sound_timer := decTimer s.sound_timer }) := by
    rw [cycle_eq_of_fetch _ _ _ _ _ _ h0 h1 hn, if_neg (by simp)]
    simp only [execInstr, tickUpd_stack, tickUpd_sp, tickUpd_pc]
    rw [if_pos (show s.stack_pointer < s.stack.length by rw [hstlen16]; omega)]
    rw [hpc2, hsp1]
    rfl
  have hc2 : cycle
      ({ s with
        stack := s.stack.set s.stack_pointer (s.pc + 2),
        stack_pointer := s.stack_pointer + 1,
        pc := opNNN x y n,
        delay_timer := decTimer s.delay_timer,
        sound_timer := decTimer s.sound_timer } : Chip8) = some (.ok .Continue
      { s with
        stack := s.stack.set s.stack_pointer (s.pc + 2),
        stack_pointer := s.stack_pointer,
        pc := s.pc + 2,
        delay_timer := decTimer (decTimer s.delay_timer),
        sound_timer := decTimer (decTimer s.sound_timer) }) := by
    rw [cycle_eq_of_fetch 0 238 0 0 14 14 hr0 hr1 (by decide), if_neg (by simp)]
    show execInstr 0 0 14 14 _ = _
    simp only [execInstr]
    rw [exec0_ret _ s.stack_pointer (s.pc + 2)
      (by show wrap8 (s.stack_pointer + 1 + 255) = s.stack_pointer
          unfold wrap8
          omega)
      (by show (s.stack.set s.stack_pointer (s.pc + 2)).get? s.stack_pointer = _
          rw [List.get?_eq_getElem?]
          exact List.getElem?_set_eq_of_lt _ (by rw [hstlen16]; omega))]
    rfl
  exact ⟨_, _, hc1, hc2, rfl, rfl, rfl, rfl, fun j hj => by
    show (s.stack.set s.stack_pointer (s.pc + 2)).get? j = s.stack.get? j
    rw [List.get?_eq_getElem?, List.get?_eq_getElem?]
    exact List.getElem?_set_ne (Ne.symm hj)⟩

/-- Witness machine for C9: the call 2300 at pc = 0x200 and the return 00EE
at 0x300, with stack pointer 15 (the last free slot of the 16-entry
stack). -/
def c9State : Chip8 :=
  mkState 512 0 15 0 0 [] [(512, 35), (513, 0), (768, 0), (769, 238)] [] []

theorem c9_call_ret_witness :
    ∃ s1 s2, cycle c9State = some (.ok .Continue s1) ∧
      cycle s1 = some (.ok .Continue s2) ∧
      s1.pc = opNNN 3 0 0 ∧ s1.stack_pointer = c9State.stack_pointer + 1 ∧
      s2.pc = c9State.pc + 2 ∧ s2.stack_pointer = c9State.stack_pointer ∧
      (∀ j, j ≠ c9State.stack_pointer → s2.stack.get? j = c9State.stack.get? j) :=
  c9_call_ret c9State
    (valid_mkState _ _ _ _ _ _ _ _ _ (by omega) (by omega) (by omega) (by omega)
      (by omega) (by simp) (by decide) (by simp))
    35 0 3 0 0 (by decide) (by decide) (by decide) (by decide) (by decide) (by decide)

/-! ## Claim C4: RAM indices computed during a cycle -/

theorem ramSet?_length {ram r : List Nat} {i v : Nat}
    (h : ramSet? ram i v = some r) : r.length = ram.length := by
  unfold ramSet? at h
  split at h
  · injection h with h
    rw [← h, List.length_set]
  · cases h

/-- No arm of the opcode table reaches an out-of-range RAM access when the
fetched instruction's computed addresses are in range: Dxyn needs
idx + n ≤ 4096, Fx33 needs idx + 2 < 4096, and Fx55/Fx65 need
idx + x < 4096. -/
theorem execInstr_ne_none (op x y n : Nat) (t : Chip8) (hram : t.ram.length = 4096)
    (hD : op = 13 → t.idx_register + n ≤ 4096)
    (h33 : op = 15 ∧ y = 3 ∧ n = 3 → t.idx_register + 2 < 4096)
    (h55 : op = 15 ∧ (y = 5 ∨ y = 6) ∧ n = 5 → t.idx_register + x < 4096) :
    execInstr op x y n t ≠ none := by
  intro h
  unfold execInstr exec0 exec8 execE execF at h
  repeat' split at h
  all_goals try simp at h
  · rename_i o heq
    unfold spriteRows at heq
    rw [if_pos (by rw [hram]; exact hD rfl)] at heq
    cases heq
  · rename_i o heq
    unfold ramSet? at heq
    rw [if_pos (by rw [hram]; have := h33 ⟨rfl, rfl, rfl⟩; omega)] at heq
    cases heq
  · rename_i o1 r1 hr1 o2 heq
    have hl1 := ramSet?_length hr1
    unfold ramSet? at heq
    rw [if_pos (by
      rw [hl1, hram]
      have := h33 ⟨rfl, rfl, rfl⟩
      unfold wrap16
      omega)] at heq
    cases heq
  · rename_i o1 r1 hr1 o2 r2 hr2 o3 heq
    have hl1 := ramSet?_length hr1
    have hl2 := ramSet?_length hr2
    unfold ramSet? at heq
    rw [if_pos (by
      rw [hl2, hl1, hram]
      have := h33 ⟨rfl, rfl, rfl⟩
      unfold wrap16
      omega)] at heq
    cases heq
  · rename_i o heq
    obtain ⟨r, hr, -⟩ := storeRegsFrom_some t.registers t.idx_register (x + 1) 0 t.ram
      (fun j hj => by rw [hram]; have := h55 ⟨rfl, Or.inl rfl, rfl⟩; omega)
      (by rw [hram]; omega)
    rw [hr] at heq
    cases heq
  · rename_i o heq
    obtain ⟨r, hr⟩ := loadRegsFrom_some t.ram t.idx_register (x + 1) 0 t.registers
      (fun j hj => by rw [hram]; have := h55 ⟨rfl, Or.inr rfl, rfl⟩; omega)
      (by rw [hram]; omega)
    rw [hr] at heq
    cases heq

/-- C4 amended: the interpreter performs no clamping of computed RAM
addresses, so the out-of-range branch of the bounds-checked embedding is
reachable (see the counterexample); it is unreachable exactly under the
per-instruction range preconditions: the fetch succeeds, Dxyn has
idx + n ≤ 4096, Fx33 has idx + 2 < 4096, and Fx55/Fx65 have
idx + x < 4096. -/
theorem c4_ram_in_range (s : Chip8) (hv : Valid s) (b0 b1 op x y n : Nat)
    (h0 : s.ram.get? s.pc = some b0) (h1 : s.ram.get? (s.pc + 1) = some b1)
    (hn : nibble_split b0 b1 = (op, x, y, n))
    (hD : op = 13 → s.idx_register + n ≤ 4096)
    (h33 : op = 15 ∧ y = 3 ∧ n = 3 → s.idx_register + 2 < 4096)
    (h55 : op = 15 ∧ (y = 5 ∨ y = 6) ∧ n = 5 → s.idx_register + x < 4096) :
    cycle s ≠ none := by
  obtain ⟨-, -, -, -, hramlen, -⟩ := hv
  rw [cycle_eq_of_fetch _ _ _ _ _ _ h0 h1 hn]
  by_cases hgate : op = 15 ∧ y = 0 ∧ n = 10
  · rw [if_pos hgate]
    intro hnone
    unfold fx0a at hnone
    repeat' split at hnone
    all_goals simp at hnone
  · rw [if_neg hgate]
    exact execInstr_ne_none op x y n _ hramlen hD h33 h55

/-- Reduction of the Fx33 arm when the third of its three RAM writes is the
first out-of-range one. -/
theorem execF_bcd_third_oob (x : Nat) (t : Chip8)
    (hi : t.idx_register < t.ram.length)
    (hi1 : wrap16 (t.idx_register + 1) < t.ram.length)
    (hi2 : ¬ wrap16 (t.idx_register + 2) < t.ram.length) :
    execF x 3 3 t = none := by
  have e1 : ramSet? t.ram t.idx_register (t.registers.getD x 0 / 100)
      = some (t.ram.set t.idx_register (t.registers.getD x 0 / 100)) := by
    unfold ramSet?
    rw [if_pos hi]
  have e2 : ramSet? (t.ram.set t.idx_register (t.registers.getD x 0 / 100))
      (wrap16 (t.idx_register + 1)) (t.registers.getD x 0 % 100 / 10)
      = some ((t.ram.set t.idx_register (t.registers.getD x 0 / 100)).set
          (wrap16 (t.idx_register + 1)) (t.registers.getD x 0 % 100 / 10)) := by
    unfold ramSet?
    rw [if_pos (by rw [List.length_set]; exact hi1)]
  have e3 : ramSet? ((t.ram.set t.idx_register (t.registers.getD x 0 / 100)).set
      (wrap16 (t.idx_register + 1)) (t.registers.getD x 0 % 100 / 10))
      (wrap16 (t.idx_register + 2)) (t.registers.getD x 0 % 10) = none := by
    unfold ramSet?
    rw [if_neg (by rw [List.length_set, List.length_set]; exact hi2)]
  simp only [execF, e1, e2, e3]

/-- Witness machine for the amended C4: the BCD instruction F133 at
pc = 0x200 with idx = 100, all computed RAM indices in range. -/
def c4State : Chip8 :=
  mkState 512 100 0 0 0 [] [(512, 241), (513, 51)] [] []

theorem c4_ram_in_range_witness : cycle c4State ≠ none :=
  c4_ram_in_range c4State
    (valid_mkState _ _ _ _ _ _ _ _ _ (by omega) (by omega) (by omega) (by omega)
      (by omega) (by simp) (by decide) (by simp))
    241 51 15 1 3 3 (by decide) (by decide) (by decide)
    (by decide) (by decide) (by decide)

/-- Counterexample machine for C4 as stated: the BCD instruction F433 at
pc = 0x200 with idx = 4094, which writes RAM indices 4094, 4095 and 4096 —
the last one out of range. -/
def c4CexState : Chip8 :=
  mkState 512 4094 0 0 0 [] [(512, 244), (513, 51)] [] []

/-- C4 as stated is false: from a valid state the interpreter can compute a
RAM index beyond 4095; with idx = 4094 the Fx33 arm reaches the
out-of-range branch of the bounds-checked embedding (in the source this is
an index-out-of-bounds abort at ram[4096]). -/
theorem c4_ram_range_counterexample :
    Valid c4CexState ∧ cycle c4CexState = none := by
  have hlen : c4CexState.ram.length = 4096 := by
    show (setMany (List.replicate 4096 0) _).length = 4096
    rw [length_setMany, List.length_replicate]
  refine ⟨valid_mkState _ _ _ _ _ _ _ _ _ (by omega) (by omega) (by omega) (by omega)
      (by omega) (by simp) (by decide) (by simp), ?_⟩
  rw [cycle_eq_of_fetch 244 51 15 4 3 3 (by decide) (by decide) (by decide),
    if_neg (by simp)]
  simp only [execInstr]
  rw [execF_bcd_third_oob 4 _
    (by show (4094 : Nat) < c4CexState.ram.length
        rw [hlen]
        omega)
    (by show wrap16 (4094 + 1) < c4CexState.ram.length
        rw [hlen]
        unfold wrap16
        omega)
    (by show ¬ wrap16 (4094 + 2) < c4CexState.ram.length
        rw [hlen]
        unfold wrap16
        omega)]

/-! ## Claim C5: fatal decode diagnostics -/

/-- The nibble tuples matched by some arm of the source's dispatch (the
first match's Fx0A arm included); every other tuple falls into one of the
two fatal catch-alls. -/
def matchedPattern (op x y n : Nat) : Prop :=
  op = 0 ∨ op = 1 ∨ op = 2 ∨ op = 3 ∨ op = 4 ∨ (op = 5 ∧ n = 0) ∨ op = 6 ∨ op = 7 ∨
  (op = 8 ∧ (n = 0 ∨ n = 1 ∨ n = 2 ∨ n = 3 ∨ n = 4 ∨ n = 5 ∨ n = 6 ∨ n = 7 ∨ n = 14)) ∨
  (op = 9 ∧ n = 0) ∨ op = 10 ∨ op = 11 ∨ op = 12 ∨ op = 13 ∨
  (op = 14 ∧ ((y = 9 ∧ n = 14) ∨ (y = 10 ∧ n = 1))) ∨
  (op = 15 ∧ ((y = 0 ∧ n = 10) ∨ (y = 0 ∧ n = 7) ∨ (y = 1 ∧ n = 5) ∨ (y = 1 ∧ n = 8) ∨
    (y = 1 ∧ n = 14) ∨ (y = 2 ∧ n = 9) ∨ (y = 3 ∧ n = 3) ∨ (y = 5 ∧ n = 5) ∨
    (y = 6 ∧ n = 5)))

instance (op x y n : Nat) : Decidable (matchedPattern op x y n) := by
  unfold matchedPattern
  infer_instance

/-- C5 amended: on a nibble tuple matching no opcode pattern the cycle
terminates fatally with a diagnostic identifying the four opcode nibbles
but not the program counter (the message is a function of the nibbles
alone — see the counterexample for two distinct pc values yielding the same
diagnostic); on a 0nnn instruction other than 00E0/00EE it terminates
fatally with a fixed diagnostic identifying neither the nibbles nor the
program counter. -/
theorem c5_fatal_decode (s : Chip8) (b0 b1 op x y n : Nat)
    (h0 : s.ram.get? s.pc = some b0) (h1 : s.ram.get? (s.pc + 1) = some b1)
    (hn : nibble_split b0 b1 = (op, x, y, n)) :
    (¬ matchedPattern op x y n → cycle s = some (.fatal (invalidMsg op x y n))) ∧
    (op = 0 → ¬(x = 0 ∧ y = 14 ∧ n = 0) → ¬(x = 0 ∧ y = 14 ∧ n = 14) →
      cycle s = some (.fatal machineRoutineMsg)) := by
  rw [cycle_eq_of_fetch _ _ _ _ _ _ h0 h1 hn]
  constructor
  · intro hnm
    rw [if_neg (fun hc => hnm (Or.inr (Or.inr (Or.inr (Or.inr (Or.inr (Or.inr (Or.inr
      (Or.inr (Or.inr (Or.inr (Or.inr (Or.inr (Or.inr (Or.inr (Or.inr
        ⟨hc.1, Or.inl ⟨hc.2.1, hc.2.2⟩⟩))))))))))))))))]
    unfold execInstr exec0 exec8 execE execF
    split <;> try split
    all_goals try rfl
    all_goals exact absurd (by simp [matchedPattern]) hnm
  · intro hop hx1 hx2
    subst hop
    rw [if_neg (by simp)]
    simp only [execInstr]
    unfold exec0
    split
    all_goals try rfl
    · exact absurd ⟨rfl, rfl, rfl⟩ hx1
    · exact absurd ⟨rfl, rfl, rfl⟩ hx2

/-- Counterexample machines for C5 as stated: the undecodable instruction
5A01 placed once at pc = 0x200 and once at pc = 0x300. -/
def c5aState : Chip8 := mkState 512 0 0 0 0 [] [(512, 90), (513, 1)] [] []

/-- Second machine of the C5 counterexample, differing from the first only
in pc and in where the undecodable instruction lies. -/
def c5bState : Chip8 := mkState 768 0 0 0 0 [] [(768, 90), (769, 1)] [] []

/-- C5 as stated is false: two machines with different program counters
produce the same fatal diagnostic, so the surfaced diagnostic cannot
identify the current program counter; moreover on a 0nnn instruction the
diagnostic is a fixed string naming neither the nibbles nor the pc. -/
theorem c5_fatal_decode_counterexample :
    cycle c5aState = some (.fatal (invalidMsg 5 10 0 1)) ∧
    cycle c5bState = some (.fatal (invalidMsg 5 10 0 1)) ∧
    c5aState.pc ≠ c5bState.pc :=
  ⟨by decide, by decide, by decide⟩

/-- Witness machine for the amended C5: the 0nnn instruction 0123 at
pc = 0x200. -/
def c5cState : Chip8 := mkState 512 0 0 0 0 [] [(512, 1), (513, 35)] [] []

theorem c5_fatal_decode_witness :
    cycle c5aState = some (.fatal (invalidMsg 5 10 0 1)) ∧
    cycle c5cState = some (.fatal machineRoutineMsg) :=
  ⟨(c5_fatal_decode c5aState 90 1 5 10 0 1 (by decide) (by decide) (by decide)).1
      (by decide),
    (c5_fatal_decode c5cState 1 35 0 1 2 3 (by decide) (by decide) (by decide)).2
      rfl (by decide) (by decide)⟩

/-! ## Claim C1: the collision flag of Dxyn -/

/-- Machine exhibiting the C1 defect: instruction D121 (draw a one-row
sprite at (V1, V2) = (0, 0)) at pc = 0x200, sprite byte 0x80 at idx = 0, an
all-zero framebuffer, and VF = 1 left over from before the instruction. -/
def c1State : Chip8 :=
  mkState 512 0 0 0 0 [(15, 1)] [(0, 128), (512, 209), (513, 33)] [] []

theorem c1State_ram_length : c1State.ram.length = 4096 := by
  show (setMany (List.replicate 4096 0) _).length = 4096
  rw [length_setMany, List.length_replicate]

/-- C1 fails on the code: drawing on an all-zero framebuffer (so no drawn
cell can transition from 1 to 0) must end with VF = 0 according to the
claim, but the source never clears VF at the start of the Dxyn instruction,
so the stale VF = 1 survives; the draw itself lands (pixel (0,0) becomes
1). -/
theorem c1_draw_vf_not_cleared :
    Valid c1State ∧
    c1State.registers.getD 15 0 = 1 ∧
    (∀ row ∈ c1State.display, ∀ c ∈ row, c = 0) ∧
    (outcomeState (cycle c1State)).map
      (fun t => (t.registers.getD 15 0, (t.display.getD 0 []).getD 0 0)) = some (1, 1) := by
  refine ⟨valid_mkState _ _ _ _ _ _ _ _ _ (by omega) (by omega) (by omega) (by omega)
      (by omega) (by decide) (by decide) (by simp), by decide, by decide, ?_⟩
  rw [cycle_eq_of_fetch 209 33 13 1 2 1 (by decide) (by decide) (by decide),
    if_neg (by simp)]
  simp only [execInstr]
  rw [show spriteRows
      (tickTimers { c1State with pc := wrap16 (c1State.pc + OP_CODE_BYTES) }).ram
      (tickTimers { c1State with pc := wrap16 (c1State.pc + OP_CODE_BYTES) }).idx_register 1
      = some [128] from by
    show spriteRows c1State.ram 0 1 = some [128]
    unfold spriteRows
    rw [if_pos (by rw [c1State_ram_length]; omega), List.drop_zero]
    show some (c1State.ram.take 1) = some [128]
    decide]
  decide

/-! ## Claim C6: ROM size checking and loading -/

/-- C6 evidence: the oversize check of `Rom::new` is dead code — a
3585-byte ROM is accepted (truncated to the 3584-byte buffer) instead of
being rejected, because `File::read` can return at most the buffer length,
making `status <= buffer.len()` a tautology.  The in-range half of the
claim does hold: `init_ram` places the font bytes at the fixed low region
and the ROM buffer at the program offset. -/
theorem c6_rom_oversize_accepted :
    romNew (List.replicate 3585 7) = Except.ok (List.replicate 3584 7) ∧
    (∀ fonts romBuf : List Nat, fonts.length = FONT_SET_SIZE →
      (init_ram (List.replicate 4096 0) fonts romBuf).take FONT_SET_SIZE = fonts ∧
      (init_ram (List.replicate 4096 0) fonts romBuf).drop PROG_OFFSET = romBuf) := by
  constructor
  · unfold romNew MAX_ROM_BYTES
    rw [List.length_replicate]
    rw [if_pos (by omega)]
    rw [List.take_replicate]
    rw [show (3584 - 3585 : Nat) = 0 from by omega]
    rw [show min 3584 3585 = 3584 from by omega]
    rw [List.replicate_zero, List.append_nil]
  · intro fonts romBuf hf
    have htf : fonts.take FONT_SET_SIZE = fonts := by
      rw [← hf, List.take_length]
    have hlenB : (((List.replicate 4096 0 : List Nat).drop FONT_SET_SIZE).take
        (PROG_OFFSET - FONT_SET_SIZE)).length = PROG_OFFSET - FONT_SET_SIZE := by
      rw [List.length_take, List.length_drop, List.length_replicate]
      unfold PROG_OFFSET FONT_SET_SIZE
      omega
    constructor
    · unfold init_ram
      rw [List.append_assoc]
      rw [List.take_append_of_le_length (by rw [List.length_take, hf]; omega)]
      rw [List.take_take]
      rw [show min FONT_SET_SIZE FONT_SET_SIZE = FONT_SET_SIZE from by omega]
      exact htf
    · unfold init_ram
      have hlen2 : (fonts.take FONT_SET_SIZE ++
          ((List.replicate 4096 0 : List Nat).drop FONT_SET_SIZE).take
            (PROG_OFFSET - FONT_SET_SIZE)).length = PROG_OFFSET := by
        rw [List.length_append, hlenB, List.length_take, hf]
        unfold PROG_OFFSET FONT_SET_SIZE
        omega
      have hd := List.drop_left (fonts.take FONT_SET_SIZE ++
          ((List.replicate 4096 0 : List Nat).drop FONT_SET_SIZE).take
            (PROG_OFFSET - FONT_SET_SIZE)) romBuf
      rw [hlen2] at hd
      exact hd

end Chip8Verif
